import Mathlib

/-!
Verification development for the scheduling-bot core (`meu_bot_agenda.py`).

The Python source is shallowly embedded below.  External collaborators
(the `dateparser` library, the babel date formatter, the MongoDB driver
and the "current time") are modelled as explicit parameters; everything
else is translated from the source, function by function, keeping the
source's names.
-/

namespace BotAgenda

/-- Absolute date-time as produced by the external date parser (we model
only the fields the program reads: year, month, day, hour, minute). -/
structure DateTime where
  year : Nat
  month : Nat
  day : Nat
  hour : Nat
  minute : Nat
deriving Repr, DecidableEq

/-- Python `" ".join(tokens)`. -/
def joinTokens : List String → String
  | [] => ""
  | t :: ts => match ts with
    | [] => t
    | _ :: _ => t ++ " " ++ joinTokens ts

/-- Helper for `pySplit`: walk the characters accumulating the current word
(reversed); whitespace closes the current word. -/
def wordsAux : List Char → List Char → List String
  | [], cur => if cur.isEmpty then [] else [String.mk cur.reverse]
  | c :: cs, cur =>
    if c.isWhitespace then
      if cur.isEmpty then wordsAux cs [] else String.mk cur.reverse :: wordsAux cs []
    else wordsAux cs (c :: cur)

/-- Python `text.split()`: split on whitespace runs, dropping empty pieces. -/
def pySplit (s : String) : List String := wordsAux s.data []

/-- Python `text.strip()`: remove leading and trailing whitespace. -/
def pyStrip (s : String) : String :=
  String.mk (((s.data.dropWhile Char.isWhitespace).reverse.dropWhile Char.isWhitespace).reverse)

/-- Python `text.lower()` (the source only ever lowercases ASCII letters). -/
def pyLower (s : String) : String := String.mk (s.data.map Char.toLower)

/-- Check that the first character list is an initial segment of the second. -/
def beginsWith : List Char → List Char → Bool
  | [], _ => true
  | _ :: _, [] => false
  | c :: cs, d :: ds => c == d && beginsWith cs ds

/-- Check that the first character list occurs contiguously inside the second. -/
def charsIn (needle : List Char) : List Char → Bool
  | [] => needle == []
  | c :: cs => beginsWith needle (c :: cs) || charsIn needle cs

/-- Python `needle in hay` on strings: substring containment. -/
def pyIn (needle hay : String) : Bool := charsIn needle.data hay.data

/-- Result of `analisar_agendamento`: the Python function returns either
`(nome, data, None)` or `(None, None, erro)`. -/
inductive ExtractResult where
  | ok (nome : String) (data : DateTime)
  | err (msg : String)
deriving Repr, DecidableEq

/-- Error message of line 91 of the source (empty subject). -/
def msgSemNome : String := "Não consegui identificar o nome do cachorro antes da data."

/-- Error message of line 98 of the source (no explicit time given). -/
def msgSemHora : String := "Você precisa me dizer um horário (ex: `Bolinha amanhã 15h`)."

/-- Error message of line 107 of the source (no trailing window parsed). -/
def msgSemData : String := "Não consegui entender a data ou hora que você digitou."

/-- Loop of `analisar_agendamento` (source lines 73-104).  The Python loop
variable `i` runs from `len(palavras)` down to `1` and examines the window
`palavras[i-1:]`; here the argument `i+1` plays the role of Python's `i`,
so the window is `palavras.drop i` and the first window tried is the
single last token.  Lines 101-102 of the source compute two unused local
strings and are omitted. -/
def analisarLoop (parse : String → Option DateTime) (palavras : List String) :
    Nat → ExtractResult
  | 0 => ExtractResult.err msgSemData
  | i + 1 =>
    let texto_data_potencial := joinTokens (palavras.drop i)
    match parse texto_data_potencial with
    | some data_parseada =>
      let nome_cachorro := pyStrip (joinTokens (palavras.take i))
      if nome_cachorro = "" then ExtractResult.err msgSemNome
      else if data_parseada.hour = 0 ∧ data_parseada.minute = 0 ∧
          pyIn ("00:00") texto_data_potencial = false ∧
          pyIn ("meia-noite") texto_data_potencial = false then
        ExtractResult.err msgSemHora
      else ExtractResult.ok nome_cachorro data_parseada
    | none => analisarLoop parse palavras i

/-- Embedding of `analisar_agendamento` (source lines 64-107), with the
external `dateparser.parse` call passed in as `parse`. -/
def analisar_agendamento (parse : String → Option DateTime) (texto_completo : String) :
    ExtractResult :=
  let palavras := pySplit texto_completo
  analisarLoop parse palavras palavras.length

/-- Lexicographic boolean comparison of character lists (the order MongoDB
uses on the BSON strings stored by the program). -/
def charListLe : List Char → List Char → Bool
  | [], _ => true
  | _ :: _, [] => false
  | c :: cs, d :: ds => if c < d then true else if d < c then false else charListLe cs ds

/-- Lexicographic string comparison used for `$sort {hora: 1}`, for the
`$gte`/`$lte` range queries and for the document sort on `data_iso`. -/
def strLe (a b : String) : Bool := charListLe a.data b.data

/-- One appointment inside a day document: `{"hora": ..., "nome_cachorro": ...}`. -/
structure Agendamento where
  hora : String
  nome_cachorro : String
deriving Repr, DecidableEq

/-- One MongoDB document of the `agendamentos` collection: a day bucket.
The `agendamentos` array can be absent (`none`), which the source code
guards for with `if "agendamentos" in doc`. -/
structure DayDoc where
  data_iso : String
  agendamentos : Option (List Agendamento)
deriving Repr, DecidableEq

/-- State of the `agenda_collection`, in natural (insertion) order. -/
abbrev AgendaDB := List DayDoc

/-- An entry of the list returned by `carregar_agendamentos_do_db`: an
appointment with its source date attached (source line 409). -/
structure AgComData where
  data_iso : String
  hora : String
  nome_cachorro : String
deriving Repr, DecidableEq

/-- Matching of a stored name against the anchored case-insensitive regex
`re.compile(f"^{re.escape(nome)}$", re.IGNORECASE)` used at source lines 375
and 429: a full-string case-insensitive comparison. -/
def ciEq (a b : String) : Bool := pyLower a == pyLower b

/-- Ordering of appointments by their time string, as `$sort: {"hora": 1}`. -/
def horaLe (a b : Agendamento) : Prop := strLe a.hora b.hora = true

instance : DecidableRel horaLe :=
  fun a b => inferInstanceAs (Decidable (strLe a.hora b.hora = true))

/-- Ordering of day documents by date, as `.sort("data_iso", 1)`. -/
def docLe (a b : DayDoc) : Prop := strLe a.data_iso b.data_iso = true

instance : DecidableRel docLe :=
  fun a b => inferInstanceAs (Decidable (strLe a.data_iso b.data_iso = true))

/-- Effect of `$push: {agendamentos: {$each: [], $sort: {hora: 1}}}`. -/
def sortByHora (l : List Agendamento) : List Agendamento := List.insertionSort horaLe l

/-- Sorting the matched documents by `data_iso` (source line 401). -/
def sortDocs (l : AgendaDB) : AgendaDB := List.insertionSort docLe l

/-- First update of `salvar_agendamento_no_db` (source lines 345-352):
`update_one` with `$push` of the new entry and `upsert=True` — the entry is
appended to the array of the first document whose `data_iso` matches, and a
fresh document is inserted when none matches. -/
def pushUpsert : AgendaDB → String → Agendamento → AgendaDB
  | [], d, e => [⟨d, some [e]⟩]
  | doc :: rest, d, e =>
    if doc.data_iso = d then
      { doc with agendamentos := some (doc.agendamentos.getD [] ++ [e]) } :: rest
    else doc :: pushUpsert rest d e

/-- Second update of `salvar_agendamento_no_db` (source lines 354-357):
re-sort the matched document's array by `hora`. -/
def sortFirst : AgendaDB → String → AgendaDB
  | [], _ => []
  | doc :: rest, d =>
    if doc.data_iso = d then
      { doc with agendamentos := doc.agendamentos.map sortByHora } :: rest
    else doc :: sortFirst rest d

/-- Embedding of `salvar_agendamento_no_db` (source lines 341-361).
`client` models the module-level MongoDB handle being available; `fault`
models the driver raising on the n-th storage call (0-indexed), which the
function's `try/except` turns into a `False` result. -/
def salvar_agendamento_no_db (client : Bool) (fault : Option Nat) (db : AgendaDB)
    (data_iso hora_str nome_cachorro : String) : Bool × AgendaDB :=
  if client = false then (false, db) else
  match fault with
  | some 0 => (false, db)
  | some 1 => (false, pushUpsert db data_iso ⟨hora_str, nome_cachorro⟩)
  | _ => (true, sortFirst (pushUpsert db data_iso ⟨hora_str, nome_cachorro⟩) data_iso)

/-- Embedding of `verificar_conflito` (source lines 363-382): `find_one`
with an `$elemMatch` on equal `hora` and on the anchored case-insensitive
name regex; the result is whether some document matched. -/
def verificar_conflito (client : Bool) (fault : Option Nat) (db : AgendaDB)
    (data_iso hora_str nome_cachorro : String) : Bool :=
  if client = false then false else
  match fault with
  | some 0 => false
  | _ => db.any (fun doc => doc.data_iso == data_iso &&
      (doc.agendamentos.getD []).any
        (fun ag => ag.hora == hora_str && ciEq ag.nome_cachorro nome_cachorro))

/-- Python `strftime("%Y-%m-%d")` building blocks: zero-padded numerals. -/
def pad2 (n : Nat) : String := if n < 10 then "0" ++ Nat.repr n else Nat.repr n

/-- Zero-padding to four digits, as `strftime("%Y")`. -/
def pad4 (n : Nat) : String :=
  if n < 10 then "000" ++ Nat.repr n
  else if n < 100 then "00" ++ Nat.repr n
  else if n < 1000 then "0" ++ Nat.repr n
  else Nat.repr n

/-- Python `data.strftime("%Y-%m-%d")`. -/
def strftimeYmd (d : DateTime) : String :=
  pad4 d.year ++ "-" ++ pad2 d.month ++ "-" ++ pad2 d.day

/-- Python `data.strftime("%H:%M")`. -/
def strftimeHM (d : DateTime) : String := pad2 d.hour ++ ":" ++ pad2 d.minute

/-- Embedding of `carregar_agendamentos_do_db` (source lines 384-415): find
the documents whose `data_iso` lies in the inclusive range, sort them by
`data_iso`, and flatten their arrays, attaching each document's date. -/
def carregar_agendamentos_do_db (client : Bool) (fault : Option Nat) (db : AgendaDB)
    (data_inicio data_fim : DateTime) : List AgComData :=
  if client = false then [] else
  let data_inicio_iso := strftimeYmd data_inicio
  let data_fim_iso := strftimeYmd data_fim
  match fault with
  | some 0 => []
  | _ =>
    let documentos := sortDocs (db.filter (fun doc =>
      strLe data_inicio_iso doc.data_iso && strLe doc.data_iso data_fim_iso))
    documentos.flatMap (fun dia_doc =>
      match dia_doc.agendamentos with
      | some ags => ags.map (fun ag => ⟨dia_doc.data_iso, ag.hora, ag.nome_cachorro⟩)
      | none => [])

/-- Effect of the `$pull` update of `apagar_agendamento_do_db`: on the first
document whose `data_iso` matches, remove every array entry with equal
`hora` and case-insensitively equal name; the first component is
`modified_count` (1 only when the array actually changed). -/
def pullFirst : AgendaDB → String → String → String → Nat × AgendaDB
  | [], _, _, _ => (0, [])
  | doc :: rest, d, h, nome =>
    if doc.data_iso = d then
      match doc.agendamentos with
      | none => (0, doc :: rest)
      | some l =>
        let l' := l.filter (fun ag => !(ag.hora == h && ciEq ag.nome_cachorro nome))
        (if l' = l then 0 else 1, { doc with agendamentos := some l' } :: rest)
    else
      let r := pullFirst rest d h nome
      (r.1, doc :: r.2)

/-- Embedding of `apagar_agendamento_do_db` (source lines 417-438): pull the
matching entries and report `modified_count > 0`. -/
def apagar_agendamento_do_db (client : Bool) (fault : Option Nat) (db : AgendaDB)
    (data_iso hora_str nome_cachorro : String) : Bool × AgendaDB :=
  if client = false then (false, db) else
  match fault with
  | some 0 => (false, db)
  | _ =>
    let r := pullFirst db data_iso hora_str nome_cachorro
    (decide (r.1 > 0), r.2)

/-- Effect of the `$set: {agendamentos: []}` update of the single-day branch
of `limpar_agendamentos_do_db`: empty the array of the first matching
document; the first component is `modified_count`, which is 0 when no
document matched or when the array was already empty (MongoDB does not
count a document whose stored value the update left unchanged). -/
def setEmptyFirst : AgendaDB → String → Nat × AgendaDB
  | [], _ => (0, [])
  | doc :: rest, d =>
    if doc.data_iso = d then
      (if doc.agendamentos = some [] then 0 else 1,
       { doc with agendamentos := some [] } :: rest)
    else
      let r := setEmptyFirst rest d
      (r.1, doc :: r.2)

/-- Embedding of `limpar_agendamentos_do_db` (source lines 440-479): for a
single day, empty that bucket in place and return `modified_count`; for a
range, count the appointments in the matching documents, delete those
documents, and return the count. -/
def limpar_agendamentos_do_db (client : Bool) (fault : Option Nat) (db : AgendaDB)
    (data_inicio data_fim : DateTime) : Nat × AgendaDB :=
  if client = false then (0, db) else
  let data_inicio_iso := strftimeYmd data_inicio
  let data_fim_iso := strftimeYmd data_fim
  if data_inicio_iso = data_fim_iso then
    match fault with
    | some 0 => (0, db)
    | _ => setEmptyFirst db data_inicio_iso
  else
    match fault with
    | some 0 => (0, db)
    | some 1 => (0, db)
    | _ =>
      let inRange := fun (doc : DayDoc) =>
        strLe data_inicio_iso doc.data_iso && strLe doc.data_iso data_fim_iso
      let total_apagado :=
        ((db.filter inRange).map (fun doc => (doc.agendamentos.getD []).length)).sum
      (total_apagado, db.filter (fun doc => !(inRange doc)))

/-- Appointment array of the first document for a date (the document every
single-day operation of the source acts on), empty when absent. -/
def bucketOf (db : AgendaDB) (d : String) : List Agendamento :=
  ((db.find? (fun doc => doc.data_iso == d)).bind DayDoc.agendamentos).getD []

/-- Example external parser used in concrete checks: it accepts exactly the
window "amanhã 15h". -/
def parseAmanha15h : String → Option DateTime :=
  fun s => if s == "amanhã 15h" then some ⟨2024, 1, 11, 15, 0⟩ else none

/-- Example external parser used in concrete checks: it accepts exactly
"amanhã", yielding the parser's implicit-midnight default. -/
def parseAmanhaMeiaNoite : String → Option DateTime :=
  fun s => if s == "amanhã" then some ⟨2024, 1, 11, 0, 0⟩ else none

/-- Replacement of every occurrence of `pat` by `rep` in `hay`, fuelled by
the length of `hay` (each step consumes at least one character, so the fuel
suffices).  Models Python `str.replace` for non-empty patterns. -/
def replaceCharsFuel (pat rep : List Char) : Nat → List Char → List Char
  | 0, hay => hay
  | _ + 1, [] => []
  | fuel + 1, c :: cs =>
    if !pat.isEmpty && beginsWith pat (c :: cs) then
      rep ++ replaceCharsFuel pat rep fuel (cs.drop (pat.length - 1))
    else c :: replaceCharsFuel pat rep fuel cs

/-- Python `text.replace(pat, rep)`. -/
def pyReplace (s pat rep : String) : String :=
  String.mk (replaceCharsFuel pat.data rep.data s.data.length s.data)

/-- Python `text.capitalize()`: first character upper, the rest lower. -/
def pyCapitalize (s : String) : String :=
  match s.data with
  | [] => ""
  | c :: cs => String.mk (c.toUpper :: cs.map Char.toLower)

/-- Python `text.startswith(pre)`. -/
def pyStartsWith (s pre : String) : Bool := beginsWith pre.data s.data

/-- Gregorian leap year, as Python `calendar.isleap`. -/
def isLeap (y : Nat) : Bool := (y % 4 == 0 && y % 100 != 0) || y % 400 == 0

/-- Number of days of a month (the second component of
`calendar.monthrange`). -/
def daysInMonth (y m : Nat) : Nat :=
  if m = 2 then (if isLeap y then 29 else 28)
  else if m = 4 ∨ m = 6 ∨ m = 9 ∨ m = 11 then 30
  else 31

/-- Number of days of the year before month `m` begins. -/
def daysBeforeMonth (y m : Nat) : Nat :=
  ((List.range (m - 1)).map (fun i => daysInMonth y (i + 1))).sum

/-- Proleptic-Gregorian day number, as Python `date.toordinal` (day 1 is
0001-01-01). -/
def toOrdinal (d : DateTime) : Nat :=
  365 * (d.year - 1) + (d.year - 1) / 4 - (d.year - 1) / 100 + (d.year - 1) / 400 +
    daysBeforeMonth d.year d.month + d.day

/-- Python `date.weekday()`: Monday is 0. -/
def weekday (d : DateTime) : Nat := (toOrdinal d + 6) % 7

/-- The next calendar day, keeping the time fields. -/
def nextDate (d : DateTime) : DateTime :=
  if d.day < daysInMonth d.year d.month then { d with day := d.day + 1 }
  else if d.month < 12 then { d with month := d.month + 1, day := 1 }
  else { d with year := d.year + 1, month := 1, day := 1 }

/-- The previous calendar day, keeping the time fields. -/
def prevDate (d : DateTime) : DateTime :=
  if 1 < d.day then { d with day := d.day - 1 }
  else if 1 < d.month then { d with month := d.month - 1, day := daysInMonth d.year (d.month - 1) }
  else { d with year := d.year - 1, month := 12, day := 31 }

/-- Python `d + timedelta(days=n)` for a non-negative day count. -/
def addDays (d : DateTime) (n : Nat) : DateTime := nextDate^[n] d

/-- Python `d - timedelta(days=n)` for a non-negative day count. -/
def subDays (d : DateTime) (n : Nat) : DateTime := prevDate^[n] d

/-- Python `calendar.monthrange(y, m)`: weekday of the first day of the
month and the month's day count. -/
def monthrange (y m : Nat) : Nat × Nat :=
  (weekday ⟨y, m, 1, 0, 0⟩, daysInMonth y m)

/-- Python `data.strftime("%d/%m")`. -/
def strftimeDM (d : DateTime) : String := pad2 d.day ++ "/" ++ pad2 d.month

/-- Month names as produced by `calendar.month_name` under the interpreter's
default locale, lowercased by the source's comprehension
`[month_name[i].lower() for i in range(1, 13)]`. -/
def nomes_meses_pt : List String :=
  [("january"), ("february"), ("march"), ("april"), ("may"), ("june"),
   ("july"), ("august"), ("september"), ("october"), ("november"), ("december")]

/-- Result of `analisar_consulta_agenda`: `(inicio, fim, titulo)` on success,
`(None, None, mensagem)` on failure. -/
inductive ConsultaResult where
  | ok (inicio fim : DateTime) (titulo : String)
  | err (msg : String)
deriving Repr, DecidableEq

/-- Normalisation applied by `analisar_consulta_agenda` (source line 147):
lowercase, strip the "agenda de"/"agenda do"/"agenda" keywords, trim. -/
def normalizaConsulta (texto_consulta : String) : String :=
  pyStrip (pyReplace (pyReplace (pyReplace (pyLower texto_consulta)
    ("agenda de") ("")) ("agenda do") ("")) ("agenda") (""))

/-- Embedding of `analisar_consulta_agenda` (source lines 140-197).  The
external `dateparser.parse` call and the external babel `format_date`
formatter are passed in; `hoje0` is the external "now" (`get_hoje()`).  The
`tzinfo` replacement of source line 179 has no counterpart here because
time zones are not modelled. -/
def analisar_consulta_agenda (parse : String → Option DateTime)
    (format_date : String → DateTime → String) (hoje0 : DateTime)
    (texto_consulta : String) : ConsultaResult :=
  let hoje : DateTime := { hoje0 with hour := 0, minute := 0 }
  let texto := normalizaConsulta texto_consulta
  if texto = "hoje" ∨ texto = "dia" then
    ConsultaResult.ok hoje hoje ("🗓️ Agenda de Hoje")
  else if texto = "amanhã" then
    let amanha := addDays hoje 1
    ConsultaResult.ok amanha amanha ("🗓️ Agenda de Amanhã")
  else if texto = "ontem" then
    let ontem := subDays hoje 1
    ConsultaResult.ok ontem ontem ("🗓️ Agenda de Ontem")
  else if texto = "semana" then
    let inicio_semana := subDays hoje (weekday hoje)
    let fim_semana := addDays inicio_semana 6
    ConsultaResult.ok inicio_semana fim_semana
      ("🗓️ Agenda da Semana (" ++ strftimeDM inicio_semana ++ " - " ++
        strftimeDM fim_semana ++ ")")
  else if texto = "mês" then
    let inicio_mes := { hoje with day := 1 }
    let ultimo_dia := (monthrange hoje.year hoje.month).2
    let fim_mes := { hoje with day := ultimo_dia }
    ConsultaResult.ok inicio_mes fim_mes
      ("🗓️ Agenda do Mês (" ++ pyCapitalize (format_date ("MMMM") hoje) ++ ")")
  else
    match parse texto with
    | none => ConsultaResult.err ("😕 Desculpe, não entendi o período '" ++ texto ++ "'.")
    | some data_parseada =>
      if texto ∈ nomes_meses_pt then
        let mes_num := nomes_meses_pt.indexOf texto + 1
        let ano := hoje.year
        let inicio_mes := { hoje with year := ano, month := mes_num, day := 1 }
        let ultimo_dia := (monthrange ano mes_num).2
        let fim_mes := { hoje with year := ano, month := mes_num, day := ultimo_dia }
        ConsultaResult.ok inicio_mes fim_mes ("🗓️ Agenda de " ++ pyCapitalize texto)
      else
        ConsultaResult.ok data_parseada data_parseada
          ("🗓️ Agenda de " ++ pyCapitalize (format_date ("cccc, dd/MM/yyyy") data_parseada))

/-- Outcome of a delegated handler call: a normal reply, or a raised
exception carrying its message. -/
inductive Attempt (α : Type) where
  | ok (a : α)
  | exn (msg : String)
deriving Repr, DecidableEq

/-- Behaviour of the five handlers `handle_text` can delegate to, each
producing a reply or raising. -/
structure Handlers where
  comando_ajuda : Attempt String
  tratar_ver_agenda : Attempt String
  tratar_apagar_agendamento : Attempt String
  tratar_limpar_agenda : Attempt String
  tratar_novo_agendamento : Attempt String

/-- Error reply of the router's `except` block (source line 336). -/
def msgErroGeral : String := "❌ Ops! Ocorreu um erro inesperado ao processar sua mensagem."

/-- Branch selection of `handle_text` (source lines 317-332): exact "ajuda",
then the "agenda"/"apagar"/"limpar" keyword checks in order, else the
free-text scheduling path. -/
def dispatch_handle_text (hs : Handlers) (texto : String) : Attempt String :=
  if texto = "ajuda" then hs.comando_ajuda
  else if pyStartsWith texto ("agenda") then hs.tratar_ver_agenda
  else if pyStartsWith texto ("apagar") then hs.tratar_apagar_agendamento
  else if pyStartsWith texto ("limpar") then hs.tratar_limpar_agenda
  else hs.tratar_novo_agendamento

/-- Embedding of the router `handle_text` (source lines 308-336): absent
message text means no reply; otherwise the lowered, stripped text is
dispatched inside `try/except`, a raise from the delegated handler being
converted into the generic error reply. -/
def handle_text (hs : Handlers) (message_text : Option String) : Option String :=
  match message_text with
  | none => none
  | some text =>
    let texto := pyStrip (pyLower text)
    match dispatch_handle_text hs texto with
    | Attempt.ok r => some r
    | Attempt.exn _ => some msgErroGeral

/-- Example parser for resolver checks: accepts exactly "august". -/
def parseAugust : String → Option DateTime :=
  fun s => if s == "august" then some ⟨2024, 8, 1, 0, 0⟩ else none

/-- Example parser that rejects everything. -/
def parseNada : String → Option DateTime := fun _ => none

/-- Example formatter standing in for babel's `format_date`. -/
def formatNulo : String → DateTime → String := fun _ _ => ""

/-- Example "now": 2024-11-05 09:30, a date in November. -/
def hojeNov : DateTime := ⟨2024, 11, 5, 9, 30⟩

/-- Example handler set in which every delegated component raises. -/
def handlersBoom : Handlers :=
  ⟨Attempt.exn ("boom"), Attempt.exn ("boom"), Attempt.exn ("boom"),
   Attempt.exn ("boom"), Attempt.exn ("boom")⟩

/-- Example date 2024-01-10 (midnight), used in concrete checks. -/
def dt0110 : DateTime := ⟨2024, 1, 10, 0, 0⟩

/-- Example date 2024-01-12 (midnight), used in concrete checks. -/
def dt0112 : DateTime := ⟨2024, 1, 12, 0, 0⟩

/-- Example collection holding one bucket whose array is already empty. -/
def dbEmptyBucket : AgendaDB := [⟨("2024-01-10"), some []⟩]

/-- Example collection: the result of saving (2024-01-10, "15:00", "Rex")
into an empty collection. -/
def dbRex : AgendaDB :=
  (salvar_agendamento_no_db true none [] ("2024-01-10") ("15:00") ("Rex")).2

/-- Example collection holding one bucket with three appointments. -/
def dbThree : AgendaDB :=
  [⟨("2024-01-10"), some [⟨("09:00"), ("A")⟩, ⟨("10:00"), ("B")⟩, ⟨("11:00"), ("C")⟩]⟩]

/-- Example collection holding buckets of sizes 2 and 3 on distinct days. -/
def dbTwoThree : AgendaDB :=
  [⟨("2024-01-10"), some [⟨("09:00"), ("A")⟩, ⟨("10:00"), ("B")⟩]⟩,
   ⟨("2024-01-12"), some [⟨("09:00"), ("C")⟩, ⟨("10:00"), ("D")⟩, ⟨("11:00"), ("E")⟩]⟩]

/-- Running the window loop from `a` down to `b` changes nothing while every
window tried on the way fails to parse.  Window `palavras.drop i` is the one
tried when the loop argument is `i + 1`. -/
theorem analisarLoop_congr (parse : String → Option DateTime) (palavras : List String) :
    ∀ a b : Nat, b ≤ a →
    (∀ i, b ≤ i → i < a → parse (joinTokens (palavras.drop i)) = none) →
    analisarLoop parse palavras a = analisarLoop parse palavras b := by
  intro a
  induction a with
  | zero => intro b hb _; have : b = 0 := Nat.le_zero.mp hb; rw [this]
  | succ a ih =>
    intro b hb hfail
    rcases Nat.eq_or_lt_of_le hb with heq | hlt
    · rw [heq]
    · have hnone : parse (joinTokens (palavras.drop a)) = none :=
        hfail a (by omega) (by omega)
      have hstep : analisarLoop parse palavras (a + 1) = analisarLoop parse palavras a := by
        simp only [analisarLoop, hnone]
      rw [hstep]
      exact ih b (by omega) (fun i h1 h2 => hfail i h1 (by omega))

/-- C1: on input "SUBJECT + TIME-EXPR", `analisar_agendamento` tries trailing
windows from the single last token outward, the shortest window that the
date parser accepts wins, and the result is everything before that window
(trimmed) as the subject together with the date-time parsed from the window.
`k` is the token length of the winning window, `n` the total token count. -/
theorem analisar_agendamento_shortest_window (parse : String → Option DateTime)
    (texto_completo : String) (palavras : List String) (n k : Nat)
    (d : DateTime) (nome : String)
    (hpal : palavras = pySplit texto_completo)
    (hn : n = palavras.length)
    (hk1 : 1 ≤ k) (hkn : k ≤ n)
    (hfail : ∀ j, 1 ≤ j → j < k → parse (joinTokens (palavras.drop (n - j))) = none)
    (hwin : parse (joinTokens (palavras.drop (n - k))) = some d)
    (hnome : nome = pyStrip (joinTokens (palavras.take (n - k))))
    (hne : ¬ nome = "")
    (htime : ¬ (d.hour = 0 ∧ d.minute = 0 ∧
      pyIn ("00:00") (joinTokens (palavras.drop (n - k))) = false ∧
      pyIn ("meia-noite") (joinTokens (palavras.drop (n - k))) = false)) :
    analisar_agendamento parse texto_completo = ExtractResult.ok nome d := by
  subst hpal hn hnome
  unfold analisar_agendamento
  have hdown :
      analisarLoop parse (pySplit texto_completo) (pySplit texto_completo).length =
      analisarLoop parse (pySplit texto_completo) ((pySplit texto_completo).length - k + 1) := by
    apply analisarLoop_congr
    · omega
    · intro i h1 h2
      have hij : i = (pySplit texto_completo).length - ((pySplit texto_completo).length - i) := by
        omega
      rw [hij]
      exact hfail ((pySplit texto_completo).length - i) (by omega) (by omega)
  rw [hdown]
  have harg : (pySplit texto_completo).length - k + 1 =
      ((pySplit texto_completo).length - k) + 1 := rfl
  rw [harg]
  simp only [analisarLoop, hwin]
  rw [if_neg hne, if_neg htime]

/-- Witness for C1: with a parser accepting exactly "amanhã 15h", the input
"Rex amanhã 15h" extracts subject "Rex" and the parsed date-time. -/
theorem analisar_agendamento_shortest_window_witness :
    analisar_agendamento parseAmanha15h ("Rex amanhã 15h") =
      ExtractResult.ok ("Rex") ⟨2024, 1, 11, 15, 0⟩ :=
  analisar_agendamento_shortest_window parseAmanha15h ("Rex amanhã 15h")
    (pySplit ("Rex amanhã 15h")) 3 2 ⟨2024, 1, 11, 15, 0⟩ ("Rex")
    rfl (by decide) (by decide) (by decide)
    (fun j h1 h2 => by
      have : j = 1 := by omega
      subst this; decide)
    (by decide) (by decide) (by decide) (by decide)

/-- Helper: once the shorter windows all fail and window `k` parses to `d`, the
loop's value is determined by the empty-subject check and the midnight check. -/
theorem analisarLoop_reaches (parse : String → Option DateTime) (palavras : List String)
    (n k : Nat) (d : DateTime)
    (hn : n = palavras.length) (hk1 : 1 ≤ k) (hkn : k ≤ n)
    (hfail : ∀ j, 1 ≤ j → j < k → parse (joinTokens (palavras.drop (n - j))) = none)
    (hwin : parse (joinTokens (palavras.drop (n - k))) = some d) :
    analisarLoop parse palavras n =
      (if pyStrip (joinTokens (palavras.take (n - k))) = "" then ExtractResult.err msgSemNome
       else if d.hour = 0 ∧ d.minute = 0 ∧
          pyIn ("00:00") (joinTokens (palavras.drop (n - k))) = false ∧
          pyIn ("meia-noite") (joinTokens (palavras.drop (n - k))) = false then
         ExtractResult.err msgSemHora
       else ExtractResult.ok (pyStrip (joinTokens (palavras.take (n - k)))) d) := by
  have hdown : analisarLoop parse palavras n = analisarLoop parse palavras (n - k + 1) := by
    apply analisarLoop_congr
    · omega
    · intro i h1 h2
      have hij : i = n - (n - i) := by omega
      rw [hij]
      exact hfail (n - i) (by omega) (by omega)
  rw [hdown]
  have harg : n - k + 1 = (n - k) + 1 := rfl
  rw [harg]
  simp only [analisarLoop, hwin]

/-- C6: with the winning window parsing to `d` and a non-empty subject in
front of it, `analisar_agendamento` fails with the missing-time error exactly
when `d` is midnight (hour 0, minute 0) and the window text contains neither
"00:00" nor "meia-noite"; when either indicator occurs in the window,
midnight is accepted. -/
theorem analisar_agendamento_missing_time_iff (parse : String → Option DateTime)
    (texto_completo : String) (palavras : List String) (n k : Nat) (d : DateTime)
    (hpal : palavras = pySplit texto_completo)
    (hn : n = palavras.length)
    (hk1 : 1 ≤ k) (hkn : k ≤ n)
    (hfail : ∀ j, 1 ≤ j → j < k → parse (joinTokens (palavras.drop (n - j))) = none)
    (hwin : parse (joinTokens (palavras.drop (n - k))) = some d)
    (hne : ¬ pyStrip (joinTokens (palavras.take (n - k))) = "") :
    (analisar_agendamento parse texto_completo = ExtractResult.err msgSemHora) ↔
      (d.hour = 0 ∧ d.minute = 0 ∧
       pyIn ("00:00") (joinTokens (palavras.drop (n - k))) = false ∧
       pyIn ("meia-noite") (joinTokens (palavras.drop (n - k))) = false) := by
  subst hpal
  unfold analisar_agendamento
  show analisarLoop parse (pySplit texto_completo) (pySplit texto_completo).length =
      ExtractResult.err msgSemHora ↔ _
  rw [← hn]
  rw [analisarLoop_reaches parse _ n k d hn hk1 hkn hfail hwin, if_neg hne]
  constructor
  · intro h
    by_contra hc
    rw [if_neg hc] at h
    exact ExtractResult.noConfusion h
  · intro h
    rw [if_pos h]

/-- Witness for C6: "Rex amanhã" parses to an implicit midnight with no
explicit indicator in the window, so extraction fails with the
missing-time error. -/
theorem analisar_agendamento_missing_time_iff_witness :
    analisar_agendamento parseAmanhaMeiaNoite ("Rex amanhã") =
      ExtractResult.err msgSemHora :=
  (analisar_agendamento_missing_time_iff parseAmanhaMeiaNoite ("Rex amanhã")
    (pySplit ("Rex amanhã")) 2 1 ⟨2024, 1, 11, 0, 0⟩
    rfl (by decide) (by decide) (by decide)
    (fun j h1 h2 => by exact absurd h2 (by omega))
    (by decide) (by decide)).mpr (by decide)

/-- Reflexivity of the character-list comparison. -/
theorem charListLe_refl : ∀ l : List Char, charListLe l l = true
  | [] => rfl
  | c :: t => by simp [charListLe, lt_irrefl, charListLe_refl t]

/-- Totality of the character-list comparison. -/
theorem charListLe_total : ∀ l1 l2 : List Char,
    charListLe l1 l2 = true ∨ charListLe l2 l1 = true := by
  intro l1
  induction l1 with
  | nil => intro l2; left; rfl
  | cons c t ih =>
    intro l2
    cases l2 with
    | nil => right; rfl
    | cons c2 t2 =>
      simp only [charListLe]
      rcases lt_trichotomy c c2 with h | h | h
      · left; simp [h]
      · subst h
        simp only [lt_irrefl, if_false]
        exact ih t2
      · right; simp [h]

/-- Transitivity of the character-list comparison. -/
theorem charListLe_trans : ∀ l1 l2 l3 : List Char,
    charListLe l1 l2 = true → charListLe l2 l3 = true → charListLe l1 l3 = true := by
  intro l1
  induction l1 with
  | nil => intro l2 l3 _ _; rfl
  | cons c1 t1 ih =>
    intro l2 l3 h12 h23
    cases l2 with
    | nil => simp [charListLe] at h12
    | cons c2 t2 =>
      cases l3 with
      | nil => simp [charListLe] at h23
      | cons c3 t3 =>
        simp only [charListLe] at h12 h23 ⊢
        by_cases a12 : c1 < c2
        · by_cases a23 : c2 < c3
          · simp [lt_trans a12 a23]
          · by_cases b23 : c3 < c2
            · rw [if_neg a23, if_pos b23] at h23; cases h23
            · have e23 : c2 = c3 := le_antisymm (not_lt.mp b23) (not_lt.mp a23)
              subst e23; simp [a12]
        · by_cases b12 : c2 < c1
          · rw [if_neg a12, if_pos b12] at h12; cases h12
          · have e12 : c1 = c2 := le_antisymm (not_lt.mp b12) (not_lt.mp a12)
            subst e12
            rw [if_neg a12, if_neg b12] at h12
            by_cases a13 : c1 < c3
            · simp [a13]
            · by_cases b13 : c3 < c1
              · rw [if_neg a13, if_pos b13] at h23; cases h23
              · rw [if_neg a13, if_neg b13] at h23 ⊢
                exact ih t2 t3 h12 h23

/-- Antisymmetry of the character-list comparison. -/
theorem charListLe_antisymm : ∀ l1 l2 : List Char,
    charListLe l1 l2 = true → charListLe l2 l1 = true → l1 = l2 := by
  intro l1
  induction l1 with
  | nil =>
    intro l2 _ h21
    cases l2 with
    | nil => rfl
    | cons c2 t2 => simp [charListLe] at h21
  | cons c1 t1 ih =>
    intro l2 h12 h21
    cases l2 with
    | nil => simp [charListLe] at h12
    | cons c2 t2 =>
      simp only [charListLe] at h12 h21
      by_cases a : c1 < c2
      · rw [if_neg (lt_asymm a), if_pos a] at h21; cases h21
      · by_cases b : c2 < c1
        · rw [if_neg a, if_pos b] at h12; cases h12
        · have e : c1 = c2 := le_antisymm (not_lt.mp b) (not_lt.mp a)
          subst e
          rw [if_neg a, if_neg b] at h12 h21
          rw [ih t2 h12 h21]

/-- Antisymmetry of the string comparison used on `data_iso` keys. -/
theorem strLe_antisymm {a b : String} (h1 : strLe a b = true) (h2 : strLe b a = true) :
    a = b :=
  congrArg String.mk (charListLe_antisymm a.data b.data h1 h2)

instance : IsTotal Agendamento horaLe :=
  ⟨fun a b => charListLe_total a.hora.data b.hora.data⟩

instance : IsTrans Agendamento horaLe :=
  ⟨fun _ _ _ h1 h2 => charListLe_trans _ _ _ h1 h2⟩

instance : IsTotal DayDoc docLe :=
  ⟨fun a b => charListLe_total a.data_iso.data b.data_iso.data⟩

instance : IsTrans DayDoc docLe :=
  ⟨fun _ _ _ h1 h2 => charListLe_trans _ _ _ h1 h2⟩

/-- C5: `verificar_conflito` answers true exactly when the bucket for the
date holds an entry with the identical time string and a subject equal under
case-insensitive whole-string comparison; concretely, after saving
(D, "15:00", "Rex"), the query for "rex" conflicts while the trailing-space
subject "Rex " does not. -/
theorem verificar_conflito_exact_ci :
    (∀ (db : AgendaDB) (d h n : String),
      verificar_conflito true none db d h n = true ↔
        ∃ doc ∈ db, doc.data_iso = d ∧
          ∃ ag ∈ doc.agendamentos.getD [], ag.hora = h ∧
            pyLower ag.nome_cachorro = pyLower n) ∧
    verificar_conflito true none dbRex ("2024-01-10") ("15:00") ("rex") = true ∧
    verificar_conflito true none dbRex ("2024-01-10") ("15:00") ("Rex ") = false := by
  refine ⟨fun db d h n => ?_, by decide, by decide⟩
  simp [verificar_conflito, ciEq, List.any_eq_true, and_assoc]

/-- Helper: with distinct bucket dates, the `modified_count` of the
empty-the-array update is 1 exactly when some bucket for the date exists
whose stored array is not already empty. -/
theorem setEmptyFirst_count (d : String) :
    ∀ db : AgendaDB, (db.map DayDoc.data_iso).Nodup →
    (setEmptyFirst db d).1 =
      if ∃ doc ∈ db, doc.data_iso = d ∧ doc.agendamentos ≠ some [] then 1 else 0 := by
  intro db
  induction db with
  | nil => intro _; simp [setEmptyFirst]
  | cons doc rest ih =>
    intro hnd
    rw [List.map_cons, List.nodup_cons] at hnd
    by_cases hd : doc.data_iso = d
    · simp only [setEmptyFirst, if_pos hd]
      by_cases hag : doc.agendamentos = some []
      · rw [if_pos hag, if_neg]
        rintro ⟨doc', hmem, hkey, hne⟩
        rcases List.mem_cons.mp hmem with rfl | hmem'
        · exact hne hag
        · have hin : doc'.data_iso ∈ rest.map DayDoc.data_iso :=
            List.mem_map_of_mem _ hmem'
          rw [hkey, ← hd] at hin
          exact hnd.1 hin
      · rw [if_neg hag, if_pos ⟨doc, List.mem_cons_self doc rest, hd, hag⟩]
    · simp only [setEmptyFirst, if_neg hd]
      rw [ih hnd.2]
      have hiff : (∃ doc' ∈ doc :: rest, doc'.data_iso = d ∧ doc'.agendamentos ≠ some []) ↔
          (∃ doc' ∈ rest, doc'.data_iso = d ∧ doc'.agendamentos ≠ some []) := by
        constructor
        · rintro ⟨x, hx, hk, hn2⟩
          rcases List.mem_cons.mp hx with rfl | h'
          · exact absurd hk hd
          · exact ⟨x, h', hk, hn2⟩
        · rintro ⟨x, hx, hk, hn2⟩
          exact ⟨x, List.mem_cons_of_mem _ hx, hk, hn2⟩
      rw [if_congr hiff rfl rfl]

/-- Helper: with distinct bucket dates, the empty-the-array update maps the
matching bucket to an emptied bucket and keeps every other document. -/
theorem setEmptyFirst_db (d : String) :
    ∀ db : AgendaDB, (db.map DayDoc.data_iso).Nodup →
    (setEmptyFirst db d).2 =
      db.map (fun doc =>
        if doc.data_iso = d then { doc with agendamentos := some [] } else doc) := by
  intro db
  induction db with
  | nil => intro _; rfl
  | cons doc rest ih =>
    intro hnd
    rw [List.map_cons, List.nodup_cons] at hnd
    by_cases hd : doc.data_iso = d
    · simp only [setEmptyFirst, if_pos hd, List.map_cons]
      have hrest : rest.map (fun doc' =>
          if doc'.data_iso = d then { doc' with agendamentos := some [] } else doc') =
          rest.map id := by
        apply List.map_congr_left
        intro x hx
        have hin : x.data_iso ∈ rest.map DayDoc.data_iso := List.mem_map_of_mem _ hx
        have : ¬ x.data_iso = d := by
          intro hxd
          rw [hxd, ← hd] at hin
          exact hnd.1 hin
        simp [this]
      rw [hrest, List.map_id]
    · simp only [setEmptyFirst, if_neg hd, List.map_cons]
      rw [ih hnd.2]

/-- Counterexample for C3: clearing a single day whose bucket exists but is
already empty returns 0, although the bucket for that date exists — the
claim's "1 if the bucket for that date existed" is falsified. -/
theorem limpar_single_day_counterexample :
    (limpar_agendamentos_do_db true none dbEmptyBucket dt0110 dt0110).1 = 0 ∧
    (∃ doc ∈ dbEmptyBucket, doc.data_iso = strftimeYmd dt0110) := by
  constructor
  · decide
  · decide

/-- C3 (amended): when start and end format to the same ISO date,
`limpar_agendamentos_do_db` empties that bucket's sequence in place and
returns 1 exactly when a bucket for that date existed with a not-already-empty
sequence (0 otherwise — in particular, not the number of appointments
removed); when they differ, it deletes every bucket in the inclusive range
and returns the total number of appointments those buckets held. -/
theorem limpar_range_amended (db : AgendaDB) (a b : DateTime)
    (hnd : (db.map DayDoc.data_iso).Nodup) :
    (strftimeYmd a = strftimeYmd b →
      (limpar_agendamentos_do_db true none db a b).1 =
        (if ∃ doc ∈ db, doc.data_iso = strftimeYmd a ∧ doc.agendamentos ≠ some []
         then 1 else 0) ∧
      (limpar_agendamentos_do_db true none db a b).2 =
        db.map (fun doc =>
          if doc.data_iso = strftimeYmd a then { doc with agendamentos := some [] }
          else doc)) ∧
    (strftimeYmd a ≠ strftimeYmd b →
      (limpar_agendamentos_do_db true none db a b).1 =
        ((db.filter (fun doc => strLe (strftimeYmd a) doc.data_iso &&
            strLe doc.data_iso (strftimeYmd b))).flatMap
          (fun doc => doc.agendamentos.getD [])).length ∧
      (limpar_agendamentos_do_db true none db a b).2 =
        db.filter (fun doc => !(strLe (strftimeYmd a) doc.data_iso &&
            strLe doc.data_iso (strftimeYmd b)))) := by
  constructor
  · intro heq
    simp only [limpar_agendamentos_do_db, if_neg (by decide : ¬((true : Bool) = false))]
    rw [if_pos heq]
    exact ⟨setEmptyFirst_count _ db hnd, setEmptyFirst_db _ db hnd⟩
  · intro hne
    simp only [limpar_agendamentos_do_db, if_neg (by decide : ¬((true : Bool) = false))]
    rw [if_neg hne]
    refine ⟨?_, rfl⟩
    rw [List.length_flatMap]
    rfl

/-- Witness for C3 (amended): a bucket of three appointments cleared for its
own single day yields 1, and a two-day range over buckets of sizes 2 and 3
yields 5. -/
theorem limpar_range_amended_witness :
    (limpar_agendamentos_do_db true none dbThree dt0110 dt0110).1 = 1 ∧
    (limpar_agendamentos_do_db true none dbTwoThree dt0110 dt0112).1 = 5 := by
  constructor
  · have h := ((limpar_range_amended dbThree dt0110 dt0110 (by decide)).1 rfl).1
    rw [h]; decide
  · have h := ((limpar_range_amended dbTwoThree dt0110 dt0112 (by decide)).2 (by decide)).1
    rw [h]; decide

/-- C7: every store operation fails closed.  With the MongoDB handle
unavailable (`client = false`) each operation returns its neutral value
(false, empty list, or 0) whatever the injected driver behaviour; and with
the handle available but the driver raising on a storage call (`fault`
names the raising call), the `try/except` of each operation again yields
the neutral value — no exception escapes the store functions, whose return
type is an ordinary value. -/
theorem store_fails_closed (f : Option Nat) (db : AgendaDB) (d h n : String)
    (a b : DateTime) :
    ((salvar_agendamento_no_db false f db d h n).1 = false ∧
     verificar_conflito false f db d h n = false ∧
     carregar_agendamentos_do_db false f db a b = [] ∧
     (apagar_agendamento_do_db false f db d h n).1 = false ∧
     (limpar_agendamentos_do_db false f db a b).1 = 0) ∧
    ((salvar_agendamento_no_db true (some 0) db d h n).1 = false ∧
     (salvar_agendamento_no_db true (some 1) db d h n).1 = false ∧
     verificar_conflito true (some 0) db d h n = false ∧
     carregar_agendamentos_do_db true (some 0) db a b = [] ∧
     (apagar_agendamento_do_db true (some 0) db d h n).1 = false ∧
     (limpar_agendamentos_do_db true (some 0) db a b).1 = 0 ∧
     (strftimeYmd a ≠ strftimeYmd b →
       (limpar_agendamentos_do_db true (some 1) db a b).1 = 0)) := by
  refine ⟨⟨rfl, rfl, rfl, rfl, rfl⟩, ⟨rfl, rfl, rfl, rfl, rfl, ?_, ?_⟩⟩
  · simp only [limpar_agendamentos_do_db, if_neg (by decide : ¬((true : Bool) = false))]
    split <;> rfl
  · intro hne
    simp only [limpar_agendamentos_do_db, if_neg (by decide : ¬((true : Bool) = false))]
    rw [if_neg hne]

/-- Witness for C7: concrete fail-closed results, including a raising
second storage call during a multi-day clear. -/
theorem store_fails_closed_witness :
    (salvar_agendamento_no_db false none [] ("2024-01-10") ("15:00") ("Rex")).1 = false ∧
    (limpar_agendamentos_do_db true (some 1) dbTwoThree dt0110 dt0112).1 = 0 :=
  ⟨(store_fails_closed none [] ("2024-01-10") ("15:00") ("Rex") dt0110 dt0112).1.1,
   (store_fails_closed (some 1) dbTwoThree ("2024-01-10") ("15:00") ("Rex")
      dt0110 dt0112).2.2.2.2.2.2.2 (by decide)⟩

/-- Helper: after the `$push` upsert, the first document for the date holds
the old bucket with the new entry appended. -/
theorem find?_pushUpsert (d : String) (e : Agendamento) : ∀ db : AgendaDB,
    (pushUpsert db d e).find? (fun doc => doc.data_iso == d) =
      some ⟨d, some (bucketOf db d ++ [e])⟩ := by
  intro db
  induction db with
  | nil => simp [pushUpsert, List.find?, bucketOf]
  | cons doc rest ih =>
    by_cases hd : doc.data_iso = d
    · simp only [pushUpsert, if_pos hd]
      rw [List.find?_cons_of_pos _ (by simp [hd])]
      simp [bucketOf, List.find?_cons_of_pos _ (show (doc.data_iso == d) = true by simp [hd]),
        hd]
    · simp only [pushUpsert, if_neg hd]
      rw [List.find?_cons_of_neg _ (by simp [hd]), ih]
      have hb : bucketOf (doc :: rest) d = bucketOf rest d := by
        unfold bucketOf
        rw [@List.find?_cons_of_neg _ (fun x => x.data_iso == d) doc rest (by simp [hd])]
      rw [hb]

/-- Helper: the re-sort update rewrites (only) the first document for the
date, sorting its array. -/
theorem find?_sortFirst (d : String) : ∀ db : AgendaDB,
    (sortFirst db d).find? (fun doc => doc.data_iso == d) =
      (db.find? (fun doc => doc.data_iso == d)).map
        (fun doc => { doc with agendamentos := doc.agendamentos.map sortByHora }) := by
  intro db
  induction db with
  | nil => rfl
  | cons doc rest ih =>
    by_cases hd : doc.data_iso = d
    · simp only [sortFirst, if_pos hd]
      rw [List.find?_cons_of_pos _ (by simp [hd]),
        @List.find?_cons_of_pos _ (fun x => x.data_iso == d) doc rest (by simp [hd])]
      rfl
    · simp only [sortFirst, if_neg hd]
      rw [List.find?_cons_of_neg _ (by simp [hd]),
        @List.find?_cons_of_neg _ (fun x => x.data_iso == d) doc rest (by simp [hd]), ih]

/-- Helper: the re-sort update does not change the sequence of dates. -/
theorem keys_sortFirst (d : String) : ∀ db : AgendaDB,
    (sortFirst db d).map DayDoc.data_iso = db.map DayDoc.data_iso := by
  intro db
  induction db with
  | nil => rfl
  | cons doc rest ih =>
    by_cases hd : doc.data_iso = d
    · simp [sortFirst, if_pos hd]
    · simp [sortFirst, if_neg hd, ih]

/-- Helper: a date occurs among the keys after the upsert exactly when it
occurred before or is the upserted date. -/
theorem mem_keys_pushUpsert (d : String) (e : Agendamento) (x : String) :
    ∀ db : AgendaDB,
    (x ∈ (pushUpsert db d e).map DayDoc.data_iso ↔
      x ∈ db.map DayDoc.data_iso ∨ x = d) := by
  intro db
  induction db with
  | nil => simp [pushUpsert]
  | cons doc rest ih =>
    by_cases hd : doc.data_iso = d
    · simp only [pushUpsert, if_pos hd, List.map_cons, List.mem_cons]
      constructor
      · rintro (h | h)
        · exact Or.inl (Or.inl h)
        · exact Or.inl (Or.inr h)
      · rintro ((h | h) | h)
        · exact Or.inl h
        · exact Or.inr h
        · exact Or.inl (h.trans hd.symm)
    · simp only [pushUpsert, if_neg hd, List.map_cons, List.mem_cons, ih]
      tauto

/-- Helper: the upsert preserves distinctness of the bucket dates. -/
theorem nodup_keys_pushUpsert (d : String) (e : Agendamento) : ∀ db : AgendaDB,
    (db.map DayDoc.data_iso).Nodup → ((pushUpsert db d e).map DayDoc.data_iso).Nodup := by
  intro db
  induction db with
  | nil => intro _; simp [pushUpsert]
  | cons doc rest ih =>
    intro hnd
    rw [List.map_cons, List.nodup_cons] at hnd
    by_cases hd : doc.data_iso = d
    · simp only [pushUpsert, if_pos hd, List.map_cons, List.nodup_cons]
      exact hnd
    · simp only [pushUpsert, if_neg hd, List.map_cons, List.nodup_cons]
      refine ⟨?_, ih hnd.2⟩
      rw [mem_keys_pushUpsert]
      rintro (h | h)
      · exact hnd.1 h
      · exact hd h

/-- Helper: the bucket a save targets holds, afterwards, the sorted old
bucket with the new entry appended. -/
theorem bucketOf_salvar (db : AgendaDB) (d h n : String) :
    bucketOf (salvar_agendamento_no_db true none db d h n).2 d =
      sortByHora (bucketOf db d ++ [⟨h, n⟩]) := by
  show bucketOf (sortFirst (pushUpsert db d ⟨h, n⟩) d) d = _
  unfold bucketOf
  rw [find?_sortFirst, find?_pushUpsert]
  rfl

/-- Helper: saving preserves distinctness of the bucket dates. -/
theorem nodup_keys_salvar (db : AgendaDB) (d h n : String)
    (hnd : (db.map DayDoc.data_iso).Nodup) :
    ((salvar_agendamento_no_db true none db d h n).2.map DayDoc.data_iso).Nodup := by
  show ((sortFirst (pushUpsert db d ⟨h, n⟩) d).map DayDoc.data_iso).Nodup
  rw [keys_sortFirst]
  exact nodup_keys_pushUpsert d ⟨h, n⟩ db hnd

/-- Helper: a degenerate `$gte d` and `$lte d` range filter over distinct
keys selects exactly the first (unique) document whose key is `d`. -/
theorem filter_single_day (d : String) : ∀ db : AgendaDB,
    (db.map DayDoc.data_iso).Nodup →
    db.filter (fun doc => strLe d doc.data_iso && strLe doc.data_iso d) =
      (db.find? (fun doc => doc.data_iso == d)).toList := by
  intro db
  induction db with
  | nil => intro _; rfl
  | cons doc rest ih =>
    intro hnd
    rw [List.map_cons, List.nodup_cons] at hnd
    by_cases hd : doc.data_iso = d
    · have hpred : (strLe d doc.data_iso && strLe doc.data_iso d) = true := by
        rw [hd]
        simp [strLe, charListLe_refl]
      rw [@List.filter_cons_of_pos _ (fun x => strLe d x.data_iso && strLe x.data_iso d)
          doc rest hpred,
        @List.find?_cons_of_pos _ (fun x => x.data_iso == d) doc rest (by simp [hd])]
      have hrest : rest.filter (fun x => strLe d x.data_iso && strLe x.data_iso d) = [] := by
        rw [List.filter_eq_nil_iff]
        intro x hx
        intro hpx
        rw [Bool.and_eq_true] at hpx
        have hxd : x.data_iso = d := (strLe_antisymm hpx.2 hpx.1)
        have hin : x.data_iso ∈ rest.map DayDoc.data_iso := List.mem_map_of_mem _ hx
        rw [hxd, ← hd] at hin
        exact hnd.1 hin
      rw [hrest]
      rfl
    · have hpred : ¬ ((strLe d doc.data_iso && strLe doc.data_iso d) = true) := by
        rw [Bool.and_eq_true]
        rintro ⟨h1, h2⟩
        exact hd (strLe_antisymm h2 h1)
      rw [@List.filter_cons_of_neg _ (fun x => strLe d x.data_iso && strLe x.data_iso d)
          doc rest hpred,
        @List.find?_cons_of_neg _ (fun x => x.data_iso == d) doc rest (by simp [hd])]
      exact ih hnd.2

/-- Helper: with distinct bucket dates, a single-day range query returns the
first matching bucket's entries (in the bucket's stored order), each tagged
with the date. -/
theorem carregar_single_day (db : AgendaDB) (a : DateTime)
    (hnd : (db.map DayDoc.data_iso).Nodup) :
    carregar_agendamentos_do_db true none db a a =
      (bucketOf db (strftimeYmd a)).map
        (fun ag => ⟨strftimeYmd a, ag.hora, ag.nome_cachorro⟩) := by
  show (sortDocs (db.filter _)).flatMap _ = _
  rw [filter_single_day (strftimeYmd a) db hnd]
  unfold bucketOf
  cases hf : db.find? (fun doc => doc.data_iso == (strftimeYmd a)) with
  | none => rfl
  | some doc =>
    have hkey : doc.data_iso = strftimeYmd a := by
      have := List.find?_some hf
      simpa using this
    show (sortDocs [doc]).flatMap _ = _
    have hsd : sortDocs [doc] = [doc] := rfl
    rw [hsd]
    cases hag : doc.agendamentos with
    | none => simp [hag]
    | some l => simp [hag, hkey]

/-- C4: immediately after `salvar_agendamento_no_db` the saved date's bucket
is sorted ascending by the zero-padded time string, and consequently the
single-day range query over that date returns its entries ordered by time
ascending, whatever the insertion order was. -/
theorem salvar_then_query_sorted (db : AgendaDB) (a : DateTime) (h n : String)
    (hnd : (db.map DayDoc.data_iso).Nodup) :
    List.Sorted horaLe
      (bucketOf (salvar_agendamento_no_db true none db (strftimeYmd a) h n).2
        (strftimeYmd a)) ∧
    List.Sorted (fun x y : AgComData => strLe x.hora y.hora = true)
      (carregar_agendamentos_do_db true none
        (salvar_agendamento_no_db true none db (strftimeYmd a) h n).2 a a) := by
  have hsorted : List.Sorted horaLe
      (bucketOf (salvar_agendamento_no_db true none db (strftimeYmd a) h n).2
        (strftimeYmd a)) := by
    rw [bucketOf_salvar db (strftimeYmd a) h n]
    exact List.sorted_insertionSort horaLe _
  refine ⟨hsorted, ?_⟩
  rw [carregar_single_day _ a (nodup_keys_salvar db (strftimeYmd a) h n hnd)]
  exact List.Pairwise.map _ (fun x y hxy => hxy) hsorted

/-- Witness for C4: inserting "09:30" after "15:00" leaves the bucket and
the single-day query sorted. -/
theorem salvar_then_query_sorted_witness :
    List.Sorted horaLe
      (bucketOf (salvar_agendamento_no_db true none dbRex (strftimeYmd dt0110)
        ("09:30") ("Totó")).2 (strftimeYmd dt0110)) ∧
    List.Sorted (fun x y : AgComData => strLe x.hora y.hora = true)
      (carregar_agendamentos_do_db true none
        (salvar_agendamento_no_db true none dbRex (strftimeYmd dt0110)
          ("09:30") ("Totó")).2 dt0110 dt0110) :=
  salvar_then_query_sorted dbRex dt0110 ("09:30") ("Totó") (by decide)

/-- Helper: the `modified_count` of the `$pull` update, given the first
document for the date and its array. -/
theorem pullFirst_count (d h nome : String) (doc : DayDoc) (l : List Agendamento) :
    ∀ db : AgendaDB,
    db.find? (fun x => x.data_iso == d) = some doc →
    doc.agendamentos = some l →
    (pullFirst db d h nome).1 =
      if l.filter (fun ag => !(ag.hora == h && ciEq ag.nome_cachorro nome)) = l
      then 0 else 1 := by
  intro db
  induction db with
  | nil => intro hf _; simp at hf
  | cons doc0 rest ih =>
    intro hf hag
    by_cases hd : doc0.data_iso = d
    · rw [@List.find?_cons_of_pos _ (fun x => x.data_iso == d) doc0 rest (by simp [hd])] at hf
      injection hf with hf
      subst hf
      simp only [pullFirst, if_pos hd, hag]
    · rw [@List.find?_cons_of_neg _ (fun x => x.data_iso == d) doc0 rest (by simp [hd])] at hf
      simp only [pullFirst, if_neg hd]
      exact ih hf hag

/-- Helper: the bucket contents after the `$pull` update, given the first
document for the date and its array. -/
theorem bucketOf_pullFirst (d h nome : String) (doc : DayDoc) (l : List Agendamento) :
    ∀ db : AgendaDB,
    db.find? (fun x => x.data_iso == d) = some doc →
    doc.agendamentos = some l →
    bucketOf (pullFirst db d h nome).2 d =
      l.filter (fun ag => !(ag.hora == h && ciEq ag.nome_cachorro nome)) := by
  intro db
  induction db with
  | nil => intro hf _; simp at hf
  | cons doc0 rest ih =>
    intro hf hag
    by_cases hd : doc0.data_iso = d
    · rw [@List.find?_cons_of_pos _ (fun x => x.data_iso == d) doc0 rest (by simp [hd])] at hf
      injection hf with hf
      subst hf
      simp only [pullFirst, if_pos hd, hag, bucketOf]
      rw [List.find?_cons_of_pos _ (by simp [hd])]
      rfl
    · rw [@List.find?_cons_of_neg _ (fun x => x.data_iso == d) doc0 rest (by simp [hd])] at hf
      simp only [pullFirst, if_neg hd, bucketOf]
      rw [List.find?_cons_of_neg _ (by simp [hd])]
      exact ih hf hag

/-- C10: an appointment saved with any casing of the subject is removed by a
subsequent delete that names the same date, time and subject in any other
casing — the delete reports success and afterwards the bucket holds no entry
at that time with a case-insensitively equal subject. -/
theorem create_then_delete_ci (db : AgendaDB) (d h n n2 : String)
    (hci : pyLower n = pyLower n2) :
    (apagar_agendamento_do_db true none
      (salvar_agendamento_no_db true none db d h n).2 d h n2).1 = true ∧
    (∀ ag ∈ bucketOf (apagar_agendamento_do_db true none
        (salvar_agendamento_no_db true none db d h n).2 d h n2).2 d,
      ¬(ag.hora = h ∧ pyLower ag.nome_cachorro = pyLower n2)) := by
  have hfind : ((salvar_agendamento_no_db true none db d h n).2).find?
      (fun x => x.data_iso == d) =
      some ⟨d, some (sortByHora (bucketOf db d ++ [⟨h, n⟩]))⟩ := by
    show ((sortFirst (pushUpsert db d ⟨h, n⟩) d).find? (fun x => x.data_iso == d)) = _
    rw [find?_sortFirst, find?_pushUpsert]
    rfl
  have hmem : (⟨h, n⟩ : Agendamento) ∈ sortByHora (bucketOf db d ++ [⟨h, n⟩]) := by
    unfold sortByHora
    rw [List.mem_insertionSort]
    simp
  have hkeep : (!((⟨h, n⟩ : Agendamento).hora == h &&
      ciEq (⟨h, n⟩ : Agendamento).nome_cachorro n2)) = false := by
    simp [ciEq, hci]
  have hfilter_ne : (sortByHora (bucketOf db d ++ [⟨h, n⟩])).filter
      (fun ag => !(ag.hora == h && ciEq ag.nome_cachorro n2)) ≠
      sortByHora (bucketOf db d ++ [⟨h, n⟩]) := by
    intro heq
    have hall := List.filter_eq_self.mp heq ⟨h, n⟩ hmem
    rw [hkeep] at hall
    cases hall
  have hc := pullFirst_count d h n2 ⟨d, some (sortByHora (bucketOf db d ++ [⟨h, n⟩]))⟩
    (sortByHora (bucketOf db d ++ [⟨h, n⟩]))
    ((salvar_agendamento_no_db true none db d h n).2) hfind rfl
  have hbkt := bucketOf_pullFirst d h n2 ⟨d, some (sortByHora (bucketOf db d ++ [⟨h, n⟩]))⟩
    (sortByHora (bucketOf db d ++ [⟨h, n⟩]))
    ((salvar_agendamento_no_db true none db d h n).2) hfind rfl
  constructor
  · show decide ((pullFirst (salvar_agendamento_no_db true none db d h n).2 d h n2).1 > 0) =
      true
    rw [hc, if_neg hfilter_ne]
    rfl
  · intro ag hmem2
    have hmem3 : ag ∈ (sortByHora (bucketOf db d ++ [⟨h, n⟩])).filter
        (fun ag => !(ag.hora == h && ciEq ag.nome_cachorro n2)) := by
      rw [← hbkt]
      exact hmem2
    have hkp := (List.mem_filter.mp hmem3).2
    rintro ⟨h1, h2⟩
    simp [h1, ciEq, h2] at hkp

/-- Witness for C10: "Rex" saved, then deleted as "REX": the delete
succeeds. -/
theorem create_then_delete_ci_witness :
    (apagar_agendamento_do_db true none
      (salvar_agendamento_no_db true none [] ("2024-01-10") ("15:00") ("Rex")).2
      ("2024-01-10") ("15:00") ("REX")).1 = true :=
  (create_then_delete_ci [] ("2024-01-10") ("15:00") ("Rex") ("REX") (by decide)).1

/-- C2: when the normalised phrase is a recognised month name (and the
external parser accepts it, which is what lets control reach the month
branch), the resolver returns the first through last day of that month in
the current year — the year of `hoje` — with no rollover, whatever month
`hoje` is in. -/
theorem resolve_month_no_rollover (parse : String → Option DateTime)
    (format_date : String → DateTime → String) (hoje0 : DateTime)
    (texto_consulta t : String) (dp : DateTime)
    (ht : normalizaConsulta texto_consulta = t)
    (hmem : t ∈ nomes_meses_pt)
    (hparse : parse t = some dp) :
    analisar_consulta_agenda parse format_date hoje0 texto_consulta =
      ConsultaResult.ok
        ⟨hoje0.year, nomes_meses_pt.indexOf t + 1, 1, 0, 0⟩
        ⟨hoje0.year, nomes_meses_pt.indexOf t + 1,
          (monthrange hoje0.year (nomes_meses_pt.indexOf t + 1)).2, 0, 0⟩
        ("🗓️ Agenda de " ++ pyCapitalize t) := by
  fin_cases hmem <;>
    (simp only [analisar_consulta_agenda]; rw [ht, hparse]) <;> rfl

/-- Witness for C2: in November, "agenda de august" resolves to
[2024-08-01, 2024-08-31] of the same year (August has already passed). -/
theorem resolve_month_no_rollover_witness :
    analisar_consulta_agenda parseAugust formatNulo hojeNov ("agenda de august") =
      ConsultaResult.ok ⟨2024, 8, 1, 0, 0⟩ ⟨2024, 8, 31, 0, 0⟩
        ("🗓️ Agenda de August") :=
  (resolve_month_no_rollover parseAugust formatNulo hojeNov ("agenda de august")
    ("august") ⟨2024, 8, 1, 0, 0⟩ (by decide) (by decide) (by decide)).trans (by decide)

/-- Helper: a list is an initial segment of itself followed by anything. -/
theorem beginsWith_self_append : ∀ l s : List Char, beginsWith l (l ++ s) = true := by
  intro l
  induction l with
  | nil => intro s; rfl
  | cons c cs ih => intro s; simp [beginsWith, ih]

/-- Helper: containment holds at the very start. -/
theorem charsIn_self_append : ∀ l s : List Char, charsIn l (l ++ s) = true := by
  intro l s
  cases l with
  | nil =>
    cases s with
    | nil => rfl
    | cons c cs => simp [charsIn, beginsWith]
  | cons c cs =>
    have hb := beginsWith_self_append (c :: cs) s
    rw [List.cons_append] at hb
    simp [charsIn, hb]

/-- Helper: containment is preserved by prepending text. -/
theorem charsIn_append_left (n : List Char) : ∀ p h : List Char,
    charsIn n h = true → charsIn n (p ++ h) = true := by
  intro p
  induction p with
  | nil => intro h hh; exact hh
  | cons c cs ih =>
    intro h hh
    show charsIn n (c :: (cs ++ h)) = true
    simp only [charsIn, Bool.or_eq_true]
    exact Or.inr (ih h hh)

/-- Helper: the character data of a concatenation. -/
theorem data_append (a b : String) : (a ++ b).data = a.data ++ b.data := by
  cases a; cases b; rfl

/-- Helper: a string occurs in prefixText ++ itself ++ suffixText. -/
theorem pyIn_middle (t p s : String) : pyIn t (p ++ t ++ s) = true := by
  unfold pyIn
  rw [data_append, data_append, List.append_assoc]
  exact charsIn_append_left _ _ _ (charsIn_self_append t.data s.data)

/-- Counterexample for C8: the phrase "Xyz" is outside the fixed vocabulary
and the parser rejects it, but the error message echoes the lowercased
normalisation "xyz", not the original phrase "Xyz" verbatim. -/
theorem resolve_echo_counterexample :
    analisar_consulta_agenda parseNada formatNulo hojeNov ("Xyz") =
      ConsultaResult.err ("😕 Desculpe, não entendi o período 'xyz'.") ∧
    pyIn ("Xyz") ("😕 Desculpe, não entendi o período 'xyz'.") = false := by
  constructor
  · decide
  · decide

/-- C8 (amended): for a phrase outside the fixed vocabulary that the parser
also rejects, the resolver returns the unrecognised-period error echoing the
normalised phrase (lowercased, command keywords removed, trimmed) — which is
the original phrase verbatim whenever the phrase is already in that
normal form, as "xyz" is. -/
theorem resolve_unrecognized_echoes (parse : String → Option DateTime)
    (format_date : String → DateTime → String) (hoje0 : DateTime)
    (texto_consulta t : String)
    (ht : normalizaConsulta texto_consulta = t)
    (h1 : ¬(t = "hoje" ∨ t = "dia")) (h2 : ¬ t = "amanhã") (h3 : ¬ t = "ontem")
    (h4 : ¬ t = "semana") (h5 : ¬ t = "mês")
    (hparse : parse t = none) :
    analisar_consulta_agenda parse format_date hoje0 texto_consulta =
      ConsultaResult.err ("😕 Desculpe, não entendi o período '" ++ t ++ "'.") ∧
    pyIn t ("😕 Desculpe, não entendi o período '" ++ t ++ "'.") = true := by
  constructor
  · simp only [analisar_consulta_agenda]
    rw [ht, if_neg h1, if_neg h2, if_neg h3, if_neg h4, if_neg h5, hparse]
  · have h := pyIn_middle t ("😕 Desculpe, não entendi o período '") ("'.")
    simpa using h

/-- Witness for C8 (amended): resolving "xyz" produces the
unrecognised-period error and the message contains "xyz". -/
theorem resolve_unrecognized_echoes_witness :
    analisar_consulta_agenda parseNada formatNulo hojeNov ("xyz") =
      ConsultaResult.err ("😕 Desculpe, não entendi o período 'xyz'.") ∧
    pyIn ("xyz") ("😕 Desculpe, não entendi o período 'xyz'.") = true := by
  have h := resolve_unrecognized_echoes parseNada formatNulo hojeNov ("xyz") ("xyz")
    (by decide) (by decide) (by decide) (by decide) (by decide) (by decide) rfl
  exact ⟨h.1, h.2⟩

/-- C9: the router always produces a reply for present message text, and
whenever the delegated handler raises, the reply is the generic
human-readable error message — no fault escapes `handle_text`. -/
theorem handle_text_catches :
    (∀ (hs : Handlers) (text : String), (handle_text hs (some text)).isSome = true) ∧
    (∀ (hs : Handlers) (text e : String),
      dispatch_handle_text hs (pyStrip (pyLower text)) = Attempt.exn e →
      handle_text hs (some text) = some msgErroGeral) := by
  constructor
  · intro hs text
    simp only [handle_text]
    cases dispatch_handle_text hs (pyStrip (pyLower text)) <;> rfl
  · intro hs text e hdt
    simp only [handle_text, hdt]

/-- Witness for C9: with every handler raising, the router replies with the
generic error message instead of letting the fault escape. -/
theorem handle_text_catches_witness :
    handle_text handlersBoom (some ("Rex amanhã 15h")) = some msgErroGeral :=
  handle_text_catches.2 handlersBoom ("Rex amanhã 15h") ("boom") (by decide)

end BotAgenda
